import Mathlib

/-! Formal model of the brightsky-rs radar precipitation decoder
(`MaybeCompressedPrecipitation::deserialize` in src/types.rs) and of the
radar query builder validation (`RadarWeatherQueryBuilder::build` in
src/radar/query_builder.rs), together with proofs of the decoder's
behavioural properties.

Bytes are modelled as natural numbers below 256 and u16 samples as natural
numbers below 65536.  The external primitives called by the decoder are
modelled executably:

* `b64Decode` models the strict standard-alphabet base64 engine used by the
  source (`general_purpose::STANDARD`): canonical `=` padding is required,
  the input length must be a multiple of four, and the unused trailing bits
  of the final quantum must be zero.
* `zlibInflate` models `flate2::read::ZlibDecoder` driven by `read_to_end`:
  zlib header validation (CM = 8, CINFO ≤ 7, FCHECK divisibility, FDICT
  unset), DEFLATE block decoding, and the big-endian Adler-32 trailer
  check.  Only stored (type-0, uncompressed) DEFLATE blocks are modelled;
  on a Huffman-compressed block the model reports failure.  Every concrete
  stream appearing below stays inside the stored-block fragment, on which
  the model agrees with zlib exactly.
* `zlibCompress` models a zlib deflater emitting stored blocks (the output
  format of `flate2` at compression level 0), a valid zlib encoding.
-/

namespace BrightSky

/-- Model of a `serde_json` number: a non-negative integer (stored by
serde_json as `u64`), a negative integer (stored as `i64`), or a float.
`Value::as_u64` succeeds only on the first form, so the values of the
other two forms are irrelevant to the decoder and are not carried. -/
inductive JNum where
  | uint (n : Nat)
  | negInt
  | float
deriving DecidableEq

/-- Model of a `serde_json::Value`. -/
inductive Json where
  | null
  | bool (b : Bool)
  | num (n : JNum)
  | str (s : String)
  | arr (elems : List Json)
  | obj (fields : List (String × Json))

/-- Model of `serde_json::Value::as_u64`: the value as a `u64` when it is a
non-negative integer number, `none` otherwise. -/
def Json.asU64 : Json → Option Nat
  | .num (.uint n) => some n
  | _ => none

/-- Shape test used in claim statements: is the value a JSON array? -/
def Json.isArr : Json → Bool
  | .arr _ => true
  | _ => false

/-- Shape test used in claim statements: is the value a JSON string? -/
def Json.isStr : Json → Bool
  | .str _ => true
  | _ => false

/-- Failure modes of the decoder, one constructor per
`serde::de::Error::custom` call site in
`MaybeCompressedPrecipitation::deserialize`. -/
inductive DecodeErr where
  | invalidArrayElement
  | expectedNestedArray
  | base64DecodeError
  | expectedStringOrArray
deriving DecidableEq

/-- Mapping to the specification's error kinds: `DecodeError::InvalidRow`
covers the two custom errors raised while decoding the plain-array
format. -/
def DecodeErr.isInvalidRow : DecodeErr → Bool
  | .invalidArrayElement => true
  | .expectedNestedArray => true
  | _ => false

/-- Test whether a decode result is a failure of the specification's
`InvalidRow` kind. -/
def DecodeErr.resultIsInvalidRow {α : Type} : Except DecodeErr α → Bool
  | .error e => e.isInvalidRow
  | .ok _ => false

/-- Result type of the decoder, mirroring the Rust enum
`MaybeCompressedPrecipitation`. -/
inductive MaybeCompressedPrecipitation where
  | Compressed (values : List Nat)
  | Bytes (values : List Nat)
  | Plain (rows : List (List Nat))
deriving DecidableEq

/-- Decidable equality for `Except` results, used to evaluate the claims
on concrete inputs. -/
instance {ε α : Type} [DecidableEq ε] [DecidableEq α] : DecidableEq (Except ε α) := fun x y =>
  match x, y with
  | .ok a, .ok b =>
    if h : a = b then .isTrue (congrArg Except.ok h)
    else .isFalse (fun hc => h (Except.ok.inj hc))
  | .error a, .error b =>
    if h : a = b then .isTrue (congrArg Except.error h)
    else .isFalse (fun hc => h (Except.error.inj hc))
  | .ok _, .error _ => .isFalse (fun hc => Except.noConfusion hc)
  | .error _, .ok _ => .isFalse (fun hc => Except.noConfusion hc)

/-- Inner loop of the plain-array branch: every element must satisfy
`as_u64`, and the value is then cast with `as u16`, which truncates to the
low 16 bits. -/
def decodeRow : List Json → Except DecodeErr (List Nat)
  | [] => .ok []
  | v :: rest =>
    match v.asU64 with
    | some n =>
      match decodeRow rest with
      | .ok row => .ok (n % 65536 :: row)
      | .error e => .error e
    | none => .error .invalidArrayElement

/-- Outer loop of the plain-array branch: every element must itself be a
JSON array, decoded by `decodeRow`. -/
def decodeRows : List Json → Except DecodeErr (List (List Nat))
  | [] => .ok []
  | .arr inner :: rest =>
    match decodeRow inner with
    | .ok row =>
      match decodeRows rest with
      | .ok rows => .ok (row :: rows)
      | .error e => .error e
    | .error e => .error e
  | _ :: _ => .error .expectedNestedArray

/-- Model of `decoded.chunks_exact(2)` followed by `u16::from_le_bytes`:
consecutive byte pairs read as little-endian 16-bit values; a trailing odd
byte is dropped. -/
def lePairs : List Nat → List Nat
  | b0 :: b1 :: rest => (b0 + 256 * b1) :: lePairs rest
  | _ => []

/-- The standard base64 alphabet. -/
def b64Alphabet : List Char :=
  ['A', 'B', 'C', 'D', 'E', 'F', 'G', 'H', 'I', 'J', 'K', 'L', 'M',
   'N', 'O', 'P', 'Q', 'R', 'S', 'T', 'U', 'V', 'W', 'X', 'Y', 'Z',
   'a', 'b', 'c', 'd', 'e', 'f', 'g', 'h', 'i', 'j', 'k', 'l', 'm',
   'n', 'o', 'p', 'q', 'r', 's', 't', 'u', 'v', 'w', 'x', 'y', 'z',
   '0', '1', '2', '3', '4', '5', '6', '7', '8', '9', '+', '/']

/-- Value of one base64 symbol, `none` for a character outside the
alphabet (in particular for the padding character). -/
def symToVal (c : Char) : Option Nat :=
  b64Alphabet.findIdx? (fun a => a == c)

/-- Symbol for a 6-bit value. -/
def valToSym (n : Nat) : Char :=
  b64Alphabet.getD n 'A'

/-- Standard base64 encoding with padding: three input bytes per four
output symbols, a two-byte remainder producing three symbols and one
padding character, a one-byte remainder producing two symbols and two
padding characters. -/
def b64Encode : List Nat → List Char
  | x :: y :: z :: rest =>
    valToSym (x / 4) :: valToSym (x % 4 * 16 + y / 16) ::
      valToSym (y % 16 * 4 + z / 64) :: valToSym (z % 64) :: b64Encode rest
  | [x, y] => [valToSym (x / 4), valToSym (x % 4 * 16 + y / 16), valToSym (y % 16 * 4), '=']
  | [x] => [valToSym (x / 4), valToSym (x % 4 * 16), '=', '=']
  | [] => []

/-- Strict standard base64 decoding as performed by the `base64` crate's
`general_purpose::STANDARD` engine: the input length must be a multiple of
four, `=` may appear only at the end of the final quantum, and the unused
trailing bits of the final quantum must be zero. -/
def b64Decode : List Char → Option (List Nat)
  | [] => some []
  | a :: b :: c :: d :: rest =>
    match symToVal a, symToVal b with
    | some va, some vb =>
      if rest.isEmpty then
        if c = '=' then
          if d = '=' then
            if vb % 16 = 0 then some [va * 4 + vb / 16] else none
          else none
        else
          match symToVal c with
          | some vc =>
            if d = '=' then
              if vc % 4 = 0 then some [va * 4 + vb / 16, vb % 16 * 16 + vc / 4] else none
            else
              match symToVal d with
              | some vd =>
                some [va * 4 + vb / 16, vb % 16 * 16 + vc / 4, vc % 4 * 64 + vd]
              | none => none
          | none => none
      else
        match symToVal c, symToVal d with
        | some vc, some vd =>
          match b64Decode rest with
          | some bytes =>
            some ((va * 4 + vb / 16) :: (vb % 16 * 16 + vc / 4) :: (vc % 4 * 64 + vd) :: bytes)
          | none => none
        | _, _ => none
    | _, _ => none
  | _ => none

/-- Adler-32 running state, updated over one byte at a time.  The first
component is the byte sum, the second the sum of sums, both modulo
65521. -/
def adlerStep : Nat × Nat → List Nat → Nat × Nat
  | p, [] => p
  | (s1, s2), b :: rest => adlerStep ((s1 + b) % 65521, (s2 + (s1 + b) % 65521) % 65521) rest

/-- Adler-32 checksum of a byte sequence, as carried in the zlib
trailer. -/
def adler32 (data : List Nat) : Nat :=
  (adlerStep (1, 0) data).2 * 65536 + (adlerStep (1, 0) data).1

/-- Big-endian trailer bytes of an Adler-32 checksum. -/
def adlerBytes (n : Nat) : List Nat :=
  [n / 16777216 % 256, n / 65536 % 256, n / 256 % 256, n % 256]

/-- Fuel-indexed construction of DEFLATE stored (type-0) blocks covering
`data`: each block is one header byte (BFINAL in bit 0, BTYPE = 00 in
bits 1-2), a little-endian 16-bit length, the one's complement of the
length, and the raw bytes.  At most 65535 bytes fit in one block; each
recursion step emits one block, so any fuel bounding the block count is
sufficient and the result is then fuel-independent. -/
def storedBlocksFuel : Nat → List Nat → List Nat
  | 0, _ => []
  | fuel + 1, data =>
    if data.length ≤ 65535 then
      1 :: data.length % 256 :: data.length / 256 ::
        (255 - data.length % 256) :: (255 - data.length / 256) :: data
    else
      0 :: 255 :: 255 :: 0 :: 0 :: (data.take 65535 ++ storedBlocksFuel fuel (data.drop 65535))

/-- DEFLATE stored blocks covering `data`, with sufficient fuel. -/
def storedBlocks (data : List Nat) : List Nat :=
  storedBlocksFuel (data.length + 1) data

/-- Modelled zlib compression using stored blocks (the output of a zlib
deflater at compression level 0): the header bytes `0x78 0x01`, the stored
DEFLATE blocks, and the big-endian Adler-32 trailer.  The repository only
inflates; this deflater exists to state the round-trip claims. -/
def zlibCompress (data : List Nat) : List Nat :=
  120 :: 1 :: (storedBlocks data ++ adlerBytes (adler32 data))

/-- Fuel-indexed decoding of a sequence of DEFLATE blocks, returning the
inflated bytes and the unconsumed remainder of the input.  Only stored
(type-0) blocks are modelled: a Huffman block header, a length/complement
mismatch, a truncated block, and a missing final block are all failures.
Each recursion step consumes one block and at least five input bytes, so
any fuel above the input length is sufficient and the result is then
fuel-independent. -/
def inflateBlocksFuel : Nat → List Nat → Option (List Nat × List Nat)
  | fuel + 1, b :: l1 :: l2 :: n1 :: n2 :: tail =>
    if b / 2 % 4 = 0 then
      if l1 + 256 * l2 + (n1 + 256 * n2) = 65535 ∧ l1 + 256 * l2 ≤ tail.length then
        if b % 2 = 1 then some (tail.take (l1 + 256 * l2), tail.drop (l1 + 256 * l2))
        else
          match inflateBlocksFuel fuel (tail.drop (l1 + 256 * l2)) with
          | some (out, rem) => some (tail.take (l1 + 256 * l2) ++ out, rem)
          | none => none
      else none
    else none
  | _ + 1, _ => none
  | 0, _ => none

/-- Decoding of a sequence of DEFLATE blocks, with sufficient fuel. -/
def inflateBlocks (input : List Nat) : Option (List Nat × List Nat) :=
  inflateBlocksFuel (input.length + 1) input

/-- Model of `flate2::read::ZlibDecoder` driven by `read_to_end`: validate
the zlib header (CM = 8, CINFO ≤ 7, FCHECK divisibility by 31, FDICT
unset), inflate the DEFLATE blocks, and verify the big-endian Adler-32
trailer.  Input bytes after the trailer are left unconsumed by the
decoder and are ignored. -/
def zlibInflate (input : List Nat) : Option (List Nat) :=
  match input with
  | cmf :: flg :: rest =>
    if cmf % 16 = 8 ∧ cmf / 16 ≤ 7 ∧ (cmf * 256 + flg) % 31 = 0 ∧ flg / 32 % 2 = 0 then
      match inflateBlocks rest with
      | some (out, a :: b :: c :: d :: _) =>
        if a * 16777216 + b * 65536 + c * 256 + d = adler32 out then some out else none
      | _ => none
    else none
  | _ => none

/-- Decoder `MaybeCompressedPrecipitation::deserialize` (src/types.rs): a
JSON array is decoded as the plain nested-array format; a JSON string is
base64-decoded (failure is fatal), then zlib inflation of the decoded
bytes is attempted, success giving the `Compressed` variant over the
inflated bytes and failure giving the `Bytes` variant over the original
decoded bytes; any other JSON shape is an error. -/
def decodePrecip : Json → Except DecodeErr MaybeCompressedPrecipitation
  | .arr outer =>
    match decodeRows outer with
    | .ok rows => .ok (.Plain rows)
    | .error e => .error e
  | .str s =>
    match b64Decode s.data with
    | none => .error .base64DecodeError
    | some decoded =>
      match zlibInflate decoded with
      | some decompressed => .ok (.Compressed (lePairs decompressed))
      | none => .ok (.Bytes (lePairs decoded))
  | _ => .error .expectedStringOrArray

/-- JSON encoding of one row of non-negative integer samples, used to
state the plain-format claims. -/
def jsonOfRow (row : List Nat) : Json :=
  .arr (row.map fun v => .num (.uint v))

/-- JSON encoding of a nested array of non-negative integer samples. -/
def jsonOfGrid (grid : List (List Nat)) : Json :=
  .arr (grid.map jsonOfRow)

/-- Little-endian byte serialization of a sequence of 16-bit samples, used
to state the binary round-trip claims. -/
def leBytes : List Nat → List Nat
  | [] => []
  | v :: rest => v % 256 :: v / 256 :: leBytes rest

/-- Model of `RadarCompressionFormat` (src/types.rs). -/
inductive RadarCompressionFormat where
  | Compressed
  | Bytes
  | Plain
deriving DecidableEq

/-- Model of `BrightSkyError` (src/errors.rs).  Coordinates are modelled
as rational numbers standing for finite `f64` values; the payloads of the
variants irrelevant to the claims (parse errors, URL, HTTP, serde) are not
carried. -/
inductive BrightSkyError where
  | DateNotSet
  | InvalidLatitude (x : ℚ)
  | InvalidLongitude (x : ℚ)
  | InvalidMaxDistance (n : Nat)
  | ParseIntError
  | ParseFloatError
  | UrlParseError
  | HttpError
  | SerdeError
deriving DecidableEq

/-- Model of `RadarWeatherQueryBuilder` (src/radar/query_builder.rs).  In
the source the latitude and longitude fields hold strings that `build`
parses as `f64`; they are modelled as already-parsed rational values
(`none` when unset).  `NaiveDate` is abstracted as an opaque day number.
No field other than `lat` and `lon` is read by `build`. -/
structure RadarWeatherQueryBuilder where
  bbox : Option (List Int)
  distance : Option Nat
  lat : Option ℚ
  lon : Option ℚ
  date : Option Nat
  lastDate : Option Nat
  compressionFormat : Option RadarCompressionFormat
  tz : Option String
deriving DecidableEq

/-- Latitude check inside `RadarWeatherQueryBuilder::build`: a parsed
latitude outside `-90.0..=90.0` is rejected — with the
`InvalidLongitude` error variant, as in the source. -/
def radarCheckLat : Option ℚ → Except BrightSkyError Unit
  | some lat => if ¬(-90 ≤ lat ∧ lat ≤ 90) then .error (.InvalidLongitude lat) else .ok ()
  | none => .ok ()

/-- Longitude check inside `RadarWeatherQueryBuilder::build`. -/
def radarCheckLon : Option ℚ → Except BrightSkyError Unit
  | some lon => if ¬(-180 ≤ lon ∧ lon ≤ 180) then .error (.InvalidLongitude lon) else .ok ()
  | none => .ok ()

/-- Model of `RadarWeatherQueryBuilder::build`: validate `lat`, then
`lon`, and return the builder unchanged. -/
def RadarWeatherQueryBuilder.build (b : RadarWeatherQueryBuilder) :
    Except BrightSkyError RadarWeatherQueryBuilder :=
  match radarCheckLat b.lat with
  | .error e => .error e
  | .ok _ =>
    match radarCheckLon b.lon with
    | .error e => .error e
    | .ok _ => .ok b

/-- Decoding inverts encoding on each base64 symbol value. -/
theorem symToVal_valToSym : ∀ n < 64, symToVal (valToSym n) = some n := by decide

/-- Encoded base64 symbols are never the padding character. -/
theorem valToSym_ne_pad : ∀ n < 64, valToSym n ≠ '=' := by decide

/-- Base64 encoding yields the empty output only on the empty input. -/
theorem b64Encode_eq_nil_iff : ∀ (bytes : List Nat), b64Encode bytes = [] ↔ bytes = [] := by
  intro bytes
  induction bytes using b64Encode.induct <;> simp [b64Encode]

/-- Round trip of the modelled strict base64 codec: decoding inverts
encoding on byte sequences. -/
theorem b64Decode_b64Encode : ∀ (bytes : List Nat), (∀ b ∈ bytes, b < 256) →
    b64Decode (b64Encode bytes) = some bytes := by
  intro bytes
  induction bytes using b64Encode.induct with
  | case1 x y z rest ih =>
    intro h
    have hx : x < 256 := h x (by simp)
    have hy : y < 256 := h y (by simp)
    have hz : z < 256 := h z (by simp)
    have h1 : x / 4 < 64 := by omega
    have h2 : x % 4 * 16 + y / 16 < 64 := by omega
    have h3 : y % 16 * 4 + z / 64 < 64 := by omega
    have h4 : z % 64 < 64 := by omega
    by_cases hr : rest = []
    · subst hr
      simp [b64Encode, b64Decode, symToVal_valToSym _ h1, symToVal_valToSym _ h2,
        symToVal_valToSym _ h3, symToVal_valToSym _ h4,
        valToSym_ne_pad _ h3, valToSym_ne_pad _ h4]
      refine ⟨?_, ?_, ?_⟩ <;> omega
    · have hne : b64Encode rest ≠ [] := by
        simpa [b64Encode_eq_nil_iff] using hr
      have hih := ih (fun b hb => h b (by simp [hb]))
      rcases hE : b64Encode rest with _ | ⟨e, es⟩
      · exact absurd hE hne
      · rw [hE] at hih
        simp [b64Encode, b64Decode, hE, symToVal_valToSym _ h1, symToVal_valToSym _ h2,
          symToVal_valToSym _ h3, symToVal_valToSym _ h4, hih]
        refine ⟨?_, ?_, ?_⟩ <;> omega
  | case2 x y =>
    intro h
    have hx : x < 256 := h x (by simp)
    have hy : y < 256 := h y (by simp)
    have h1 : x / 4 < 64 := by omega
    have h2 : x % 4 * 16 + y / 16 < 64 := by omega
    have h3 : y % 16 * 4 < 64 := by omega
    have hmod : y % 16 * 4 % 4 = 0 := by omega
    simp [b64Encode, b64Decode, symToVal_valToSym _ h1, symToVal_valToSym _ h2,
      symToVal_valToSym _ h3, valToSym_ne_pad _ h3, hmod]
    refine ⟨?_, ?_⟩ <;> omega
  | case3 x =>
    intro h
    have hx : x < 256 := h x (by simp)
    have h1 : x / 4 < 64 := by omega
    have h2 : x % 4 * 16 < 64 := by omega
    have hmod : x % 4 * 16 % 16 = 0 := by omega
    simp [b64Encode, b64Decode, symToVal_valToSym _ h1, symToVal_valToSym _ h2, hmod]
    omega
  | case4 =>
    intro _
    rfl

/-- A sample sequence read with `chunks_exact(2)` has one sample per full
byte pair: the trailing odd byte contributes nothing. -/
theorem lePairs_length : ∀ (buf : List Nat), (lePairs buf).length = buf.length / 2 := by
  intro buf
  induction buf using lePairs.induct with
  | case1 b0 b1 rest ih => simp [lePairs, ih]; omega
  | case2 l h =>
    rcases l with _ | ⟨a, _ | ⟨b, t⟩⟩
    · simp [lePairs]
    · simp [lePairs]
    · exact (h a b t rfl).elim

/-- Reading back little-endian byte pairs recovers the sample sequence. -/
theorem lePairs_leBytes : ∀ (values : List Nat), lePairs (leBytes values) = values := by
  intro values
  induction values with
  | nil => rfl
  | cons v rest ih => simp [leBytes, lePairs, ih]; omega

/-- Little-endian serialization of 16-bit samples produces bytes. -/
theorem leBytes_lt : ∀ (values : List Nat), (∀ v ∈ values, v < 65536) →
    ∀ b ∈ leBytes values, b < 256 := by
  intro values
  induction values with
  | nil => intro _ b hb; simp [leBytes] at hb
  | cons v rest ih =>
    intro h b hb
    have hv : v < 65536 := h v (by simp)
    rcases (by simpa [leBytes] using hb : b = v % 256 ∨ b = v / 256 ∨ b ∈ leBytes rest) with
      h1 | h2 | h3
    · omega
    · omega
    · exact ih (fun w hw => h w (by simp [hw])) b h3

/-- The Adler-32 running state stays below the modulus. -/
theorem adlerStep_lt : ∀ (l : List Nat) (p : Nat × Nat), p.1 < 65521 → p.2 < 65521 →
    (adlerStep p l).1 < 65521 ∧ (adlerStep p l).2 < 65521 := by
  intro l
  induction l with
  | nil => intro p h1 h2; exact ⟨h1, h2⟩
  | cons b rest ih =>
    intro p h1 h2
    rcases p with ⟨s1, s2⟩
    simpa [adlerStep] using ih _ (by omega) (by omega)

/-- Adler-32 checksums fit in 32 bits. -/
theorem adler32_lt (data : List Nat) : adler32 data < 4294967296 := by
  have h := adlerStep_lt data (1, 0) (by omega) (by omega)
  unfold adler32
  omega

/-- With sufficient fuel on both sides, inflating the stored blocks of
`data` followed by any suffix recovers `data` exactly and leaves the
suffix unconsumed. -/
theorem inflateBlocksFuel_stored :
    ∀ (f1 : Nat) (data suffix : List Nat) (f2 : Nat),
      data.length + 1 ≤ f1 * 65535 → data.length + 1 ≤ f2 * 65535 →
      inflateBlocksFuel f2 (storedBlocksFuel f1 data ++ suffix) = some (data, suffix) := by
  intro f1
  induction f1 with
  | zero => intro data suffix f2 h1 h2; omega
  | succ f ih =>
    intro data suffix f2 h1 h2
    obtain ⟨g, rfl⟩ : ∃ g, f2 = g + 1 := ⟨f2 - 1, by omega⟩
    by_cases hlen : data.length ≤ 65535
    · have hL : data.length % 256 + 256 * (data.length / 256) = data.length := by omega
      simp only [storedBlocksFuel, if_pos hlen, List.cons_append, inflateBlocksFuel, if_true]
      rw [if_pos (⟨by omega, by rw [hL]; simp [List.length_append]⟩ :
        data.length % 256 + 256 * (data.length / 256) +
            (255 - data.length % 256 + 256 * (255 - data.length / 256)) = 65535 ∧
          data.length % 256 + 256 * (data.length / 256) ≤ (data ++ suffix).length)]
      rw [hL, List.take_left, List.drop_left]
    · have htk : (data.take 65535).length = 65535 := by
        simp [List.length_take]; omega
      simp only [storedBlocksFuel, if_neg hlen, List.cons_append, List.append_assoc,
        inflateBlocksFuel, if_true, true_and]
      rw [if_pos (by simp only [List.length_append]; omega :
        (255 : Nat) + 256 * 255 ≤
          (data.take 65535 ++ (storedBlocksFuel f (data.drop 65535) ++ suffix)).length)]
      rw [if_neg (by norm_num : ¬ (0 : Nat) % 2 = 1)]
      rw [show (255 : Nat) + 256 * 255 = 65535 by norm_num]
      rw [List.take_left' htk, List.drop_left' htk]
      rw [ih (data.drop 65535) suffix g (by simp [List.length_drop]; omega)
        (by simp [List.length_drop]; omega)]
      simp

/-- Stored-block output is at least as long as its payload. -/
theorem storedBlocksFuel_length_ge :
    ∀ (f1 : Nat) (data : List Nat), data.length + 1 ≤ f1 * 65535 →
      data.length ≤ (storedBlocksFuel f1 data).length := by
  intro f1
  induction f1 with
  | zero => intro data h; omega
  | succ f ih =>
    intro data h
    by_cases hlen : data.length ≤ 65535
    · simp [storedBlocksFuel, if_pos hlen]; omega
    · have hrec := ih (data.drop 65535) (by simp [List.length_drop]; omega)
      simp only [storedBlocksFuel, if_neg hlen]
      simp only [List.length_cons, List.length_append, List.length_take, List.length_drop] at *
      omega

/-- Round trip of the modelled zlib codec: inflating a stored-block
deflate stream recovers the original bytes. -/
theorem zlibInflate_zlibCompress (data : List Nat) :
    zlibInflate (zlibCompress data) = some data := by
  have hA := adler32_lt data
  have hst : data.length ≤ (storedBlocksFuel (data.length + 1) data).length :=
    storedBlocksFuel_length_ge _ _ (by omega)
  have hrt := inflateBlocksFuel_stored (data.length + 1) data (adlerBytes (adler32 data))
    ((storedBlocksFuel (data.length + 1) data ++ adlerBytes (adler32 data)).length + 1)
    (by omega)
    (by simp only [List.length_append, adlerBytes, List.length_cons, List.length_nil]; omega)
  simp only [zlibCompress, zlibInflate]
  rw [if_pos (show True ∧ (120 : Nat) / 16 ≤ 7 ∧ True ∧ True by norm_num)]
  unfold inflateBlocks storedBlocks
  rw [hrt]
  simp only [adlerBytes]
  rw [if_pos (by omega :
    adler32 data / 16777216 % 256 * 16777216 + adler32 data / 65536 % 256 * 65536 +
      adler32 data / 256 % 256 * 256 + adler32 data % 256 = adler32 data)]

/-- Stored-block output consists of bytes when the payload does. -/
theorem storedBlocksFuel_lt : ∀ (f : Nat) (data : List Nat), (∀ b ∈ data, b < 256) →
    ∀ b ∈ storedBlocksFuel f data, b < 256 := by
  intro f
  induction f with
  | zero => intro data h b hb; simp [storedBlocksFuel] at hb
  | succ g ih =>
    intro data h b hb
    by_cases hlen : data.length ≤ 65535
    · simp only [storedBlocksFuel, if_pos hlen, List.mem_cons] at hb
      rcases hb with rfl | rfl | rfl | rfl | rfl | hb
      · omega
      · omega
      · omega
      · omega
      · omega
      · exact h b hb
    · simp only [storedBlocksFuel, if_neg hlen, List.mem_cons, List.mem_append] at hb
      rcases hb with rfl | rfl | rfl | rfl | rfl | hb | hb
      · omega
      · omega
      · omega
      · omega
      · omega
      · exact h b (List.take_subset _ _ hb)
      · exact ih _ (fun x hx => h x (List.drop_subset _ _ hx)) b hb

/-- Compressed streams consist of bytes when the payload does. -/
theorem zlibCompress_lt (data : List Nat) (h : ∀ b ∈ data, b < 256) :
    ∀ b ∈ zlibCompress data, b < 256 := by
  intro b hb
  simp only [zlibCompress, storedBlocks, adlerBytes, List.mem_cons, List.mem_append] at hb
  rcases hb with rfl | rfl | hb | hb
  · omega
  · omega
  · exact storedBlocksFuel_lt _ _ h b hb
  · simp only [List.mem_cons, List.not_mem_nil] at hb
    rcases hb with rfl | rfl | rfl | rfl | hfalse
    · omega
    · omega
    · omega
    · omega
    · exact hfalse.elim

/-- The plain-array inner loop truncates each non-negative integer to its
low 16 bits and never fails on integer elements. -/
theorem decodeRow_uintRow (row : List Nat) :
    decodeRow (row.map fun v => .num (.uint v)) = .ok (row.map fun v => v % 65536) := by
  induction row with
  | nil => rfl
  | cons v rest ih => simp [decodeRow, Json.asU64, ih]

/-- The plain-array outer loop on integer grids. -/
theorem decodeRows_uintGrid (grid : List (List Nat)) :
    decodeRows (grid.map jsonOfRow) = .ok (grid.map fun row => row.map fun v => v % 65536) := by
  induction grid with
  | nil => rfl
  | cons row rest ih => simp [decodeRows, jsonOfRow, decodeRow_uintRow, ih]

/-- Truncation is the identity on values that fit in 16 bits. -/
theorem map_mod65536_eq_self : ∀ (row : List Nat), (∀ v ∈ row, v ≤ 65535) →
    row.map (fun v => v % 65536) = row := by
  intro row
  induction row with
  | nil => intro _; rfl
  | cons v rest ih =>
    intro h
    have hv : v ≤ 65535 := h v (by simp)
    simp only [List.map_cons]
    rw [Nat.mod_eq_of_lt (by omega), ih (fun w hw => h w (by simp [hw]))]

/-- An inner-loop failure is always the invalid-element error. -/
theorem decodeRow_error : ∀ (xs : List Json) (e : DecodeErr), decodeRow xs = .error e →
    e = .invalidArrayElement := by
  intro xs
  induction xs with
  | nil => intro e h; simp [decodeRow] at h
  | cons v rest ih =>
    intro e h
    simp only [decodeRow] at h
    cases hv : v.asU64 with
    | some n =>
      rw [hv] at h
      cases hr : decodeRow rest with
      | ok row => rw [hr] at h; simp at h
      | error e2 =>
        rw [hr] at h
        simp only [Except.error.injEq] at h
        exact h ▸ ih e2 hr
    | none =>
      rw [hv] at h
      simp only [Except.error.injEq] at h
      exact h.symm

/-- An outer-loop failure is always one of the two row errors. -/
theorem decodeRows_error : ∀ (xs : List Json) (e : DecodeErr), decodeRows xs = .error e →
    e.isInvalidRow = true := by
  intro xs
  induction xs with
  | nil => intro e h; simp [decodeRows] at h
  | cons x rest ih =>
    intro e h
    cases x with
    | arr inner =>
      simp only [decodeRows] at h
      cases hr : decodeRow inner with
      | ok row =>
        rw [hr] at h
        cases hs : decodeRows rest with
        | ok rows => rw [hs] at h; simp at h
        | error e2 =>
          rw [hs] at h
          simp only [Except.error.injEq] at h
          exact h ▸ ih e2 hs
      | error e2 =>
        rw [hr] at h
        simp only [Except.error.injEq] at h
        rw [← h, decodeRow_error inner e2 hr]
        rfl
    | null => simp only [decodeRows, Except.error.injEq] at h; rw [← h]; rfl
    | bool b => simp only [decodeRows, Except.error.injEq] at h; rw [← h]; rfl
    | num n => simp only [decodeRows, Except.error.injEq] at h; rw [← h]; rfl
    | str s => simp only [decodeRows, Except.error.injEq] at h; rw [← h]; rfl
    | obj fields => simp only [decodeRows, Except.error.injEq] at h; rw [← h]; rfl

/-- A successful inner loop certifies that every element passed
`as_u64`. -/
theorem decodeRow_ok_mem : ∀ (xs : List Json) (row : List Nat), decodeRow xs = .ok row →
    ∀ v ∈ xs, ∃ n, v.asU64 = some n := by
  intro xs
  induction xs with
  | nil => intro row _ v hv; simp at hv
  | cons w rest ih =>
    intro row h v hv
    simp only [decodeRow] at h
    cases hw : w.asU64 with
    | some n =>
      rw [hw] at h
      cases hr : decodeRow rest with
      | ok r2 =>
        rcases List.mem_cons.mp hv with rfl | hv2
        · exact ⟨n, hw⟩
        · exact ih r2 hr v hv2
      | error e2 => rw [hr] at h; simp at h
    | none => rw [hw] at h; simp at h

/-- A successful outer loop certifies that every element was an array of
`as_u64`-accepted values. -/
theorem decodeRows_ok_mem : ∀ (xs : List Json) (rows : List (List Nat)),
    decodeRows xs = .ok rows →
    ∀ x ∈ xs, ∃ inner, x = .arr inner ∧ ∀ v ∈ inner, ∃ n, v.asU64 = some n := by
  intro xs
  induction xs with
  | nil => intro rows _ x hx; simp at hx
  | cons w rest ih =>
    intro rows h x hx
    cases w with
    | arr inner =>
      simp only [decodeRows] at h
      cases hr : decodeRow inner with
      | ok row =>
        rw [hr] at h
        cases hs : decodeRows rest with
        | ok rows2 =>
          rcases List.mem_cons.mp hx with rfl | hx2
          · exact ⟨inner, rfl, decodeRow_ok_mem inner row hr⟩
          · exact ih rows2 hs x hx2
        | error e2 => rw [hs] at h; simp at h
      | error e2 => rw [hr] at h; simp at h
    | null => simp [decodeRows] at h
    | bool b => simp [decodeRows] at h
    | num n => simp [decodeRows] at h
    | str s => simp [decodeRows] at h
    | obj fields => simp [decodeRows] at h

/-- Latitude-check failures always carry the `InvalidLongitude`
variant. -/
theorem radarCheckLat_error (o : Option ℚ) (e : BrightSkyError)
    (h : radarCheckLat o = .error e) : ∃ q, e = .InvalidLongitude q := by
  cases o with
  | none => simp [radarCheckLat] at h
  | some q =>
    simp only [radarCheckLat] at h
    by_cases hc : ¬(-90 ≤ q ∧ q ≤ 90)
    · rw [if_pos hc] at h
      exact ⟨q, (Except.error.inj h).symm⟩
    · rw [if_neg hc] at h
      cases h

/-- Longitude-check failures always carry the `InvalidLongitude`
variant. -/
theorem radarCheckLon_error (o : Option ℚ) (e : BrightSkyError)
    (h : radarCheckLon o = .error e) : ∃ q, e = .InvalidLongitude q := by
  cases o with
  | none => simp [radarCheckLon] at h
  | some q =>
    simp only [radarCheckLon] at h
    by_cases hc : ¬(-180 ≤ q ∧ q ≤ 180)
    · rw [if_pos hc] at h
      exact ⟨q, (Except.error.inj h).symm⟩
    · rw [if_neg hc] at h
      cases h

/-- Truncation is the identity on grids of values that fit in 16 bits. -/
theorem map_grid_mod65536_eq_self : ∀ (grid : List (List Nat)),
    (∀ row ∈ grid, ∀ v ∈ row, v ≤ 65535) →
    (grid.map fun row => row.map fun v => v % 65536) = grid := by
  intro grid
  induction grid with
  | nil => intro _; rfl
  | cons row rest ih =>
    intro h
    simp only [List.map_cons]
    rw [map_mod65536_eq_self row (h row (by simp)), ih (fun r hr => h r (by simp [hr]))]

/-- C1: for every JSON string value whose base64 decoding succeeds but
whose decoded bytes are not a valid zlib stream (inflation fails),
decoding does not return an error: it returns the uncompressed-source
`Bytes` variant built from the original base64-decoded bytes, so
zlib-inflation failure is never surfaced to the caller. -/
theorem claim_C1 (s : String) (decoded : List Nat)
    (hb : b64Decode s.data = some decoded) (hz : zlibInflate decoded = none) :
    decodePrecip (.str s) = .ok (.Bytes (lePairs decoded)) := by
  simp [decodePrecip, hb, hz]

/-- Witness for C1 at the string "AAAA", whose three decoded bytes fail
the zlib header check. -/
theorem claim_C1_witness :
    b64Decode "AAAA".data = some [0, 0, 0] ∧ zlibInflate [0, 0, 0] = none ∧
      decodePrecip (.str "AAAA") = .ok (.Bytes (lePairs [0, 0, 0])) :=
  ⟨by decide, by decide, claim_C1 "AAAA" [0, 0, 0] (by decide) (by decide)⟩

/-- C2: serializing u16 samples as little-endian byte pairs,
zlib-deflating, base64-encoding, and decoding the resulting JSON string
yields the compressed-source `Compressed` variant containing exactly the
original sequence. -/
theorem claim_C2 (values : List Nat) (h : ∀ v ∈ values, v < 65536) :
    decodePrecip (.str (String.mk (b64Encode (zlibCompress (leBytes values))))) =
      .ok (.Compressed values) := by
  have hb : b64Decode (b64Encode (zlibCompress (leBytes values))) =
      some (zlibCompress (leBytes values)) :=
    b64Decode_b64Encode _ (zlibCompress_lt _ (leBytes_lt values h))
  simp [decodePrecip, hb, zlibInflate_zlibCompress, lePairs_leBytes]

/-- Witness for C2 at the sample sequence [1, 65535]. -/
theorem claim_C2_witness :
    (∀ v ∈ [1, 65535], v < 65536) ∧
      decodePrecip (.str (String.mk (b64Encode (zlibCompress (leBytes [1, 65535]))))) =
        .ok (.Compressed [1, 65535]) :=
  ⟨by decide, claim_C2 [1, 65535] (by decide)⟩

/-- C3 counterexample: the samples [376, 257, 65024, 25087, 25088, 25088]
serialize little-endian to 0x78 0x01 0x01 0x01 0x00 0xFE 0xFF 0x61 0x00
0x62 0x00 0x62, which is itself a complete valid zlib stream (a stored
block holding the single byte 0x61 plus its Adler-32 trailer), so the
inflate probe succeeds and decoding its base64 encoding returns the
`Compressed` variant, not the `Bytes` variant required by the claim. -/
theorem claim_C3_counterexample :
    decodePrecip
        (.str (String.mk (b64Encode (leBytes [376, 257, 65024, 25087, 25088, 25088])))) =
        .ok (.Compressed []) ∧
      decodePrecip
        (.str (String.mk (b64Encode (leBytes [376, 257, 65024, 25087, 25088, 25088])))) ≠
        .ok (.Bytes [376, 257, 65024, 25087, 25088, 25088]) :=
  ⟨by decide, by decide⟩

/-- C3 (amended): for every u16 sequence whose little-endian serialization
fails zlib inflation (it is not itself a valid zlib stream), decoding the
base64 encoding of those bytes yields the uncompressed-source `Bytes`
variant with the original sequence. -/
theorem claim_C3 (values : List Nat) (h : ∀ v ∈ values, v < 65536)
    (hz : zlibInflate (leBytes values) = none) :
    decodePrecip (.str (String.mk (b64Encode (leBytes values)))) = .ok (.Bytes values) := by
  have hb : b64Decode (b64Encode (leBytes values)) = some (leBytes values) :=
    b64Decode_b64Encode _ (leBytes_lt values h)
  simp [decodePrecip, hb, hz, lePairs_leBytes]

/-- Witness for the amended C3 at the sample sequence [1, 2]. -/
theorem claim_C3_witness :
    (∀ v ∈ [1, 2], v < 65536) ∧ zlibInflate (leBytes [1, 2]) = none ∧
      decodePrecip (.str (String.mk (b64Encode (leBytes [1, 2])))) = .ok (.Bytes [1, 2]) :=
  ⟨by decide, by decide, claim_C3 [1, 2] (by decide) (by decide)⟩

/-- C4: every nested JSON array of non-negative integers each at most
65535 decodes to the row-oriented `Plain` variant with identical values in
identical positions. -/
theorem claim_C4 (grid : List (List Nat)) (h : ∀ row ∈ grid, ∀ v ∈ row, v ≤ 65535) :
    decodePrecip (jsonOfGrid grid) = .ok (.Plain grid) := by
  simp [decodePrecip, jsonOfGrid, decodeRows_uintGrid, map_grid_mod65536_eq_self grid h]

/-- Witness for C4 at the grid [[10, 20, 30], [40, 50, 60]]. -/
theorem claim_C4_witness :
    (∀ row ∈ [[10, 20, 30], [40, 50, 60]], ∀ v ∈ row, v ≤ 65535) ∧
      decodePrecip (jsonOfGrid [[10, 20, 30], [40, 50, 60]]) =
        .ok (.Plain [[10, 20, 30], [40, 50, 60]]) :=
  ⟨by decide, claim_C4 [[10, 20, 30], [40, 50, 60]] (by decide)⟩

/-- C5 counterexample: the claim requires an element that does not fit in
16 bits to fail with InvalidRow, but decoding [[65536]] succeeds: the
`as u16` cast truncates 65536 to 0 and the result is the Plain grid
[[0]]. -/
theorem claim_C5_counterexample :
    decodePrecip (.arr [.arr [.num (.uint 65536)]]) = .ok (.Plain [[0]]) := by decide

/-- C5 (amended): an array containing a non-array element, or containing
an inner array with an element rejected by `as_u64` (a non-integer or a
negative value), fails with the InvalidRow error kind; an integer element
exceeding 65535 does not fail, however: the `as u16` cast truncates every
accepted integer to its low 16 bits. -/
theorem claim_C5 (xs : List Json) (grid : List (List Nat))
    (hbad : ∃ x ∈ xs, (∀ inner, x ≠ .arr inner) ∨
      ∃ inner, x = .arr inner ∧ ∃ v ∈ inner, v.asU64 = none)
    (_hgrid : ∀ row ∈ grid, ∀ v ∈ row, v < 18446744073709551616) :
    DecodeErr.resultIsInvalidRow (decodePrecip (.arr xs)) = true ∧
      decodePrecip (jsonOfGrid grid) =
        .ok (.Plain (grid.map fun row => row.map fun v => v % 65536)) := by
  refine ⟨?_, by simp [decodePrecip, jsonOfGrid, decodeRows_uintGrid]⟩
  cases hd : decodeRows xs with
  | ok rows =>
    exfalso
    rcases hbad with ⟨x, hx, hcase⟩
    rcases decodeRows_ok_mem xs rows hd x hx with ⟨inner, rfl, hinner⟩
    rcases hcase with hno | ⟨inner2, heq, v, hv, hnone⟩
    · exact hno inner rfl
    · obtain rfl := Json.arr.inj heq
      rcases hinner v hv with ⟨n, hsome⟩
      rw [hsome] at hnone
      cases hnone
  | error e =>
    simp [decodePrecip, hd, DecodeErr.resultIsInvalidRow, decodeRows_error xs e hd]

/-- Witness for the amended C5: a non-float-free inner array fails with
the InvalidRow kind, and an overflowing entry is truncated, not
rejected. -/
theorem claim_C5_witness :
    (∃ x ∈ [Json.arr [Json.num JNum.float]],
        (∀ inner, x ≠ .arr inner) ∨
          ∃ inner, x = .arr inner ∧ ∃ v ∈ inner, v.asU64 = none) ∧
      (∀ row ∈ [[70000]], ∀ v ∈ row, v < 18446744073709551616) ∧
      DecodeErr.resultIsInvalidRow (decodePrecip (.arr [Json.arr [Json.num JNum.float]])) = true ∧
      decodePrecip (jsonOfGrid [[70000]]) =
        .ok (.Plain ([[70000]].map fun row => row.map fun v => v % 65536)) := by
  refine ⟨⟨Json.arr [Json.num JNum.float], by simp,
    Or.inr ⟨[Json.num JNum.float], rfl, Json.num JNum.float, by simp, rfl⟩⟩, by decide, ?_⟩
  exact claim_C5 [Json.arr [Json.num JNum.float]] [[70000]]
    ⟨Json.arr [Json.num JNum.float], by simp,
      Or.inr ⟨[Json.num JNum.float], rfl, Json.num JNum.float, by simp, rfl⟩⟩
    (by decide)

/-- C6: after inflate-or-raw resolution of a decoded base64 string, the
flat sample sequence has exactly floor(length / 2) elements — an odd
buffer silently drops its final byte — and decoding succeeds. -/
theorem claim_C6 (s : String) (decoded out : List Nat)
    (hb : b64Decode s.data = some decoded) :
    (zlibInflate decoded = some out →
        decodePrecip (.str s) = .ok (.Compressed (lePairs out)) ∧
          (lePairs out).length = out.length / 2) ∧
      (zlibInflate decoded = none →
        decodePrecip (.str s) = .ok (.Bytes (lePairs decoded)) ∧
          (lePairs decoded).length = decoded.length / 2) := by
  constructor
  · intro hz
    exact ⟨by simp [decodePrecip, hb, hz], lePairs_length out⟩
  · intro hz
    exact ⟨by simp [decodePrecip, hb, hz], lePairs_length decoded⟩

/-- Witness for C6 at the string "AAAA": three decoded bytes resolve to a
single sample, dropping the trailing odd byte. -/
theorem claim_C6_witness :
    b64Decode "AAAA".data = some [0, 0, 0] ∧
      (zlibInflate [0, 0, 0] = some [] →
        decodePrecip (.str "AAAA") = .ok (.Compressed (lePairs [])) ∧
          (lePairs ([] : List Nat)).length = ([] : List Nat).length / 2) ∧
      (zlibInflate [0, 0, 0] = none →
        decodePrecip (.str "AAAA") = .ok (.Bytes (lePairs [0, 0, 0])) ∧
          (lePairs [0, 0, 0]).length = [0, 0, 0].length / 2) :=
  ⟨by decide, (claim_C6 "AAAA" [0, 0, 0] [] (by decide)).1,
    (claim_C6 "AAAA" [0, 0, 0] [] (by decide)).2⟩

/-- C7: a JSON string that is not valid base64 fails with the
InvalidBase64 error; the failure is terminal and never retried as a
different format. -/
theorem claim_C7 (s : String) (hb : b64Decode s.data = none) :
    decodePrecip (.str s) = .error .base64DecodeError := by
  simp [decodePrecip, hb]

/-- Witness for C7 at the string "!". -/
theorem claim_C7_witness :
    b64Decode "!".data = none ∧
      decodePrecip (.str "!") = .error .base64DecodeError :=
  ⟨by decide, claim_C7 "!" (by decide)⟩

/-- C8: a JSON value that is neither an array nor a string fails with the
UnexpectedShape error. -/
theorem claim_C8 (j : Json) (ha : j.isArr = false) (hs : j.isStr = false) :
    decodePrecip j = .error .expectedStringOrArray := by
  cases j <;> simp_all [Json.isArr, Json.isStr, decodePrecip]

/-- Witness for C8 at JSON null. -/
theorem claim_C8_witness :
    Json.isArr Json.null = false ∧ Json.isStr Json.null = false ∧
      decodePrecip Json.null = .error .expectedStringOrArray :=
  ⟨rfl, rfl, claim_C8 Json.null rfl rfl⟩

/-- C9: decoding is a pure, deterministic function of its input: equal
JSON inputs give equal results, and on the string path the result depends
only on the string's byte-for-byte character data.  In this embedding the
decoder is a total function, so no side effects can occur. -/
theorem claim_C9 (j1 j2 : Json) (s1 s2 : String) (hj : j1 = j2) (hs : s1.data = s2.data) :
    decodePrecip j1 = decodePrecip j2 ∧
      decodePrecip (.str s1) = decodePrecip (.str s2) := by
  constructor
  · rw [hj]
  · simp only [decodePrecip]
    rw [hs]

/-- Witness for C9 at JSON null and the string "ab". -/
theorem claim_C9_witness :
    decodePrecip Json.null = decodePrecip Json.null ∧
      decodePrecip (.str "ab") = decodePrecip (.str "ab") :=
  claim_C9 Json.null Json.null "ab" "ab" rfl rfl

/-- C10: a radar builder whose latitude parses to a value outside
[-90, 90] fails `build`, but with the InvalidLongitude variant carrying
the latitude value rather than InvalidLatitude; the InvalidLatitude
variant is never produced by this builder. -/
theorem claim_C10 (b b2 : RadarWeatherQueryBuilder) (lat x : ℚ)
    (hb : b.lat = some lat) (hout : lat < -90 ∨ 90 < lat) :
    b.build = .error (.InvalidLongitude lat) ∧
      b2.build ≠ .error (.InvalidLatitude x) := by
  constructor
  · have hcond : ¬(-90 ≤ lat ∧ lat ≤ 90) := by
      rintro ⟨h1, h2⟩
      rcases hout with h | h <;> linarith
    unfold RadarWeatherQueryBuilder.build
    rw [hb]
    simp only [radarCheckLat, if_pos hcond]
  · intro hc
    unfold RadarWeatherQueryBuilder.build at hc
    cases hl : radarCheckLat b2.lat with
    | error e =>
      rw [hl] at hc
      rcases radarCheckLat_error _ _ hl with ⟨q, rfl⟩
      simp at hc
    | ok u =>
      rw [hl] at hc
      cases hlo : radarCheckLon b2.lon with
      | error e =>
        rw [hlo] at hc
        rcases radarCheckLon_error _ _ hlo with ⟨q, rfl⟩
        simp at hc
      | ok u2 =>
        rw [hlo] at hc
        simp at hc

/-- Witness for C10 at latitude 91. -/
theorem claim_C10_witness :
    RadarWeatherQueryBuilder.build ⟨none, none, some 91, none, none, none, none, none⟩ =
        .error (.InvalidLongitude 91) ∧
      RadarWeatherQueryBuilder.build ⟨none, none, some 91, none, none, none, none, none⟩ ≠
        .error (.InvalidLatitude 0) :=
  claim_C10 ⟨none, none, some 91, none, none, none, none, none⟩
    ⟨none, none, some 91, none, none, none, none, none⟩ 91 0 rfl (Or.inr (by norm_num))

end BrightSky
